import Mathlib

/-!
Verification development for the read-and-run shell of main.cpp.

The embedding follows the source: parse_input is translated as a pure
function on the character data of the input line; the fork/exec/wait
sequence of exec_command is split into the child continuation (a pure
function of the command and the execvp outcome) and the parent
continuation (an explicit state-passing run over the parent-process
state, producing the state snapshots between statements and the list of
system calls issued, with OS nondeterminism supplied by an oracle); the
prompt loop of main and repl_loop is a recursion over the list of input
lines.
-/

namespace Shell

/-- Disposition of the terminal-interrupt signal (SIGINT) for a process:
SIG_DFL, SIG_IGN, or a custom handler. The program only ever installs
SIG_IGN and SIG_DFL via signal(). -/
inductive Disposition where
  | dfl
  | ign
  | custom
deriving DecidableEq, Repr

/-- The command structure of main.cpp: an executable name (file) and the
argument list (args). -/
structure Command where
  file : String
  args : List String
deriving DecidableEq, Repr

/-- Splitting loop of parse_input, walking the characters of the input
line. The accumulator cur holds the characters seen since last_index
(the position just after the most recent space). On a space the current
segment is pushed --- possibly empty, exactly as substr(last_index,
i - last_index) is pushed unconditionally --- and the accumulator is
reset. At the end of the line the final segment is pushed only when it
is nonempty, matching the last_index < input.length() test. -/
def collectParts : List Char → List Char → List String
  | [], cur => if cur = [] then [] else [String.mk cur]
  | c :: rest, cur =>
    if c = ' ' then String.mk cur :: collectParts rest []
    else collectParts rest (cur ++ [c])

/-- Translation of parse_input from main.cpp: split the line on single
spaces; if no part was produced, throw the string Empty command
(modelled as Except.error); otherwise the first part is the executable
and the remaining parts are the arguments. -/
def parse_input (input : String) : Except String Command :=
  match collectParts input.data [] with
  | [] => Except.error "Empty command"
  | p :: ps => Except.ok { file := p, args := ps }

/-- Cell i of the argv array built in the child branch of exec_command:
argv[0] = cmd.file, argv[i + 1] = cmd.args[i] for i below the argument
count, and argv[n + 1] = nullptr (none models the null pointer). -/
def argvAt (cmd : Command) (i : Nat) : Option String :=
  if i = 0 then some cmd.file else cmd.args.get? (i - 1)

/-- The argv array of size cmd.args.size() + 2 passed to execvp by the
child branch of exec_command, read off cell by cell. -/
def buildArgv (cmd : Command) : List (Option String) :=
  (List.range (cmd.args.length + 2)).map (argvAt cmd)

/-- Output streams of the process. The child branch of exec_command
prints its execvp diagnostic on cout, the standard output stream. -/
inductive OutStream where
  | stdout
  | stderr
deriving DecidableEq, Repr

/-- Outcome of the execvp call, decided by the operating system: either
the process image is replaced (execvp does not return), or execvp fails
and returns, with strerror(errno) giving the failure description. -/
inductive ExecOutcome where
  | replaced
  | failed (errnoDesc : String)
deriving DecidableEq, Repr

/-- How the child process of exec_command ends: either its image is
replaced by the requested executable (carrying the path and the argv
vector handed to execvp), or it prints a diagnostic on some stream and
terminates itself via exit with the given status. Both ends are
terminal; the child never continues into code meant for the parent. -/
inductive ChildEnd where
  | imageReplaced (path : String) (argv : List (Option String))
  | selfExit (status : Int) (stream : OutStream) (diag : String)
deriving DecidableEq, Repr

/-- Child continuation of exec_command (the branch taken when fork()
returned 0): build argv, call execvp(cmd.file.c_str(), argv); when
execvp returns it has failed, and the child prints the line
execvp failed with error: followed by strerror(errno) on cout (the
standard output stream) and calls exit(-1). -/
def exec_command_child (cmd : Command) (ex : ExecOutcome) : ChildEnd :=
  match ex with
  | ExecOutcome.replaced => ChildEnd.imageReplaced cmd.file (buildArgv cmd)
  | ExecOutcome.failed d =>
      ChildEnd.selfExit (-1) OutStream.stdout ("execvp failed with error: " ++ d)

/-- Parent-process state relevant to exec_command: the SIGINT
disposition of the parent and the pids of its live (forked and not yet
waited-for) children, in creation order. -/
structure PState where
  dispo : Disposition
  children : List Nat
deriving DecidableEq, Repr

/-- OS nondeterminism for one wait(nullptr) call: whether the call is
interrupted by a signal before any child terminates (failing with
EINTR), and otherwise which live child the OS reports first (pick,
reduced modulo the number of live children) together with the actual
termination status of that child. The status is known to the OS only:
the program passes nullptr for the status argument of wait, so nothing
the program computes may depend on it. -/
structure WaitOracle where
  interrupted : Bool
  pick : Nat
  status : Int

/-- System calls issued by the parent branch of exec_command, with the
value each call returned (for signal, the disposition installed). -/
inductive Sys where
  | forkCall (ret : Int)
  | signalCall (d : Disposition)
  | waitCall (ret : Int)
deriving DecidableEq, Repr

/-- Semantics of fork() as seen by the parent: on success (fo = some p)
a child with pid p is created, recorded as live, and p is returned; on
failure (fo = none) no process is created and -1 is returned. In the
parent process fork never returns 0. -/
def sysFork (s : PState) (fo : Option Nat) : Int × PState :=
  match fo with
  | some p => ((p : Int), { s with children := s.children ++ [p] })
  | none => (-1, s)

/-- Semantics of wait(nullptr): the call fails with -1 when interrupted
(EINTR) or when the caller has no live child (ECHILD); otherwise it
blocks until some live child terminates --- whichever one the OS
reports first, not a caller-chosen one --- reaps it, and returns its
pid. The status argument is a null pointer, so the terminated child
status is discarded. -/
def sysWaitAny (s : PState) (o : WaitOracle) : Int × PState :=
  if o.interrupted then (-1, s)
  else if s.children = [] then (-1, s)
  else
    let i := o.pick % s.children.length
    ((s.children.getD i 0 : Int), { s with children := s.children.eraseIdx i })

/-- Record of one exec_command call as run by the parent process: the
parent-state snapshots between statements and the system calls issued.
The C++ function returns void, so there is no return-value field. -/
structure ExecRun where
  trace : List PState
  calls : List Sys
deriving DecidableEq, Repr

/-- Translation of exec_command from main.cpp as executed in the parent
process. fo is the fork outcome (some p: a child with pid p was created
and fork returned p; none: fork failed and returned -1). The code
branches on !(pid = fork()); in the parent fork never returns 0, so any
nonzero return --- including the -1 of a failed fork --- takes the else
branch, which calls signal(SIGINT, SIG_IGN), then wait(nullptr) without
inspecting its result, then signal(SIGINT, SIG_DFL), and returns. The
trace holds five snapshots: entry, after fork, after the first signal
call, after wait, after the second signal call. -/
def exec_command_parent (s0 : PState) (fo : Option Nat) (o : WaitOracle) : ExecRun :=
  let fr := sysFork s0 fo
  if fr.1 = 0 then
    { trace := [s0, fr.2], calls := [Sys.forkCall fr.1] }
  else
    let s2 : PState := { fr.2 with dispo := Disposition.ign }
    let wr := sysWaitAny s2 o
    let s4 : PState := { wr.2 with dispo := Disposition.dfl }
    { trace := [s0, fr.2, s2, wr.2, s4],
      calls := [Sys.forkCall fr.1, Sys.signalCall Disposition.ign,
                Sys.waitCall wr.1, Sys.signalCall Disposition.dfl] }

/-- Exit status as observed by the parent through wait: the OS keeps
only the low 8 bits of the integer a process passes to exit. -/
def observedExitStatus (st : Int) : Int := st % 256

/-- How the prompt loop of main.cpp ends: end of input, the exit
builtin, or an uncaught exception (the throw in parse_input) that
escapes repl_loop and the while loop and is caught by the try/catch of
main, which prints Fatal error and returns, terminating the program. -/
inductive LoopEnd where
  | eof
  | exitCmd
  | fatal (msg : String)
deriving DecidableEq, Repr

/-- The prompt loop of main.cpp over a list of input lines, with
repl_loop inlined: each iteration parses one line; a parse error
propagates out of the loop (fatal); the exit builtin stops the loop;
any other command is handed to exec_command --- which returns void and
throws nothing --- and the loop continues with the next line. Returns
the commands handed to exec_command, in order, and how the loop
ended. -/
def runMain : List String → List Command × LoopEnd
  | [] => ([], LoopEnd.eof)
  | line :: rest =>
    match parse_input line with
    | Except.error e => ([], LoopEnd.fatal e)
    | Except.ok cmd =>
      if cmd.file = "exit" then ([], LoopEnd.exitCmd)
      else ((cmd :: (runMain rest).1), (runMain rest).2)

/-- The splitting loop produces no part exactly when both the remaining
input and the current segment are empty: any space pushes a part, and a
nonempty trailing segment is pushed at the end. -/
theorem collectParts_eq_nil (l : List Char) :
    ∀ cur : List Char, (collectParts l cur = [] ↔ (l = [] ∧ cur = [])) := by
  induction l with
  | nil =>
    intro cur
    by_cases h : cur = [] <;> simp [collectParts, h]
  | cons c rest ih =>
    intro cur
    by_cases hc : c = ' ' <;> simp [collectParts, hc, ih]

/-- When the current segment is nonempty, the first part the splitting
loop produces extends that segment: its characters start with cur. -/
theorem collectParts_head (l : List Char) :
    ∀ cur : List Char, cur ≠ [] →
      ∃ t, (collectParts l cur).head? = some (String.mk (cur ++ t)) := by
  induction l with
  | nil =>
    intro cur h
    refine ⟨[], ?_⟩
    simp [collectParts, h]
  | cons c rest ih =>
    intro cur h
    by_cases hc : c = ' '
    · refine ⟨[], ?_⟩
      simp [collectParts, hc]
    · obtain ⟨t, ht⟩ := ih (cur ++ [c]) (by simp)
      refine ⟨c :: t, ?_⟩
      simpa [collectParts, hc] using ht

/-- Reading a list off cell by cell over the range of its length gives
back the list, with each cell wrapped in some. -/
theorem map_get?_range {α : Type} (l : List α) :
    (List.range l.length).map l.get? = l.map some := by
  induction l with
  | nil => rfl
  | cons a t ih =>
    rw [List.length_cons, List.range_succ_eq_map, List.map_cons, List.map_map]
    have hcomp : ((a :: t).get? ∘ Nat.succ) = t.get? := by
      funext i
      simp
    rw [hcomp, ih]
    simp

/-- The argv array built by the child branch is exactly the executable
name, then the user arguments in order, then the null terminator. -/
theorem buildArgv_eq (cmd : Command) :
    buildArgv cmd = some cmd.file :: (cmd.args.map some ++ [none]) := by
  unfold buildArgv
  have h2 : cmd.args.length + 2 = (cmd.args.length + 1) + 1 := rfl
  rw [h2, List.range_succ_eq_map, List.map_cons, List.map_map]
  have hcomp : (argvAt cmd ∘ Nat.succ) = cmd.args.get? := by
    funext i
    simp [argvAt]
  rw [hcomp, List.range_succ, List.map_append]
  rw [map_get?_range]
  simp [argvAt]

/-- C1 counterexample. The claim says exec_command returns an
ExitOutcome equal to the launched program actual termination status.
Two launches whose children actually terminate with statuses 0 and 7
produce literally identical runs (the status passes through the wait
oracle only, and wait is called with a null status pointer), so nothing
the caller can observe equals the termination status in both runs; the
function returns void. -/
theorem C1_counterexample :
    exec_command_parent ⟨Disposition.dfl, []⟩ (some 5) ⟨false, 0, 0⟩ =
      exec_command_parent ⟨Disposition.dfl, []⟩ (some 5) ⟨false, 0, 7⟩ ∧
    (0 : Int) ≠ 7 := ⟨rfl, by decide⟩

/-- C1 amended: for every launch with a successful fork, exactly one
child process is created (the snapshot after fork shows exactly the new
pid recorded) and exactly one fork, one wait and two signal calls are
issued; but no termination status is returned: the entire run is
independent of the actual termination status of the child, because
wait is called with a null status pointer and exec_command returns
void. -/
theorem C1_amended (d0 : Disposition) (p pick : Nat) (st st2 : Int) (hp : 0 < p) :
    (exec_command_parent ⟨d0, []⟩ (some p) ⟨false, pick, st⟩).trace.get? 1 =
      some ⟨d0, [p]⟩ ∧
    (exec_command_parent ⟨d0, []⟩ (some p) ⟨false, pick, st⟩).calls =
      [Sys.forkCall (p : Int), Sys.signalCall Disposition.ign, Sys.waitCall (p : Int),
       Sys.signalCall Disposition.dfl] ∧
    exec_command_parent ⟨d0, []⟩ (some p) ⟨false, pick, st⟩ =
      exec_command_parent ⟨d0, []⟩ (some p) ⟨false, pick, st2⟩ := by
  have hpz : ((p : Nat) : Int) ≠ 0 := by omega
  refine ⟨?_, ?_, ?_⟩ <;>
    simp [exec_command_parent, sysFork, sysWaitAny, hpz, Nat.mod_one]

/-- C1 witness: the amended statement evaluated at a concrete launch
(child pid 5, the child terminating with status 0 or with status 9). -/
theorem C1_witness :
    (exec_command_parent ⟨Disposition.dfl, []⟩ (some 5) ⟨false, 0, 0⟩).trace.get? 1 =
      some ⟨Disposition.dfl, [5]⟩ ∧
    (exec_command_parent ⟨Disposition.dfl, []⟩ (some 5) ⟨false, 0, 0⟩).calls =
      [Sys.forkCall 5, Sys.signalCall Disposition.ign, Sys.waitCall 5,
       Sys.signalCall Disposition.dfl] ∧
    exec_command_parent ⟨Disposition.dfl, []⟩ (some 5) ⟨false, 0, 0⟩ =
      exec_command_parent ⟨Disposition.dfl, []⟩ (some 5) ⟨false, 0, 9⟩ := by
  simpa using C1_amended Disposition.dfl 5 0 0 9 (by decide)

/-- C2 counterexample. The claim says the disposition is ignore exactly
during the interval in which the launched child is running and
unwaited. In the concrete launch of child 5, the snapshot immediately
after fork (index 1) has the child live and unwaited while the
disposition is still default, and the snapshot immediately after wait
(index 3) has the child already reaped while the disposition is still
ignore; so the ignore interval and the child-running interval do not
coincide. -/
theorem C2_counterexample :
    (exec_command_parent ⟨Disposition.dfl, []⟩ (some 5) ⟨false, 0, 0⟩).trace.get? 1 =
      some ⟨Disposition.dfl, [5]⟩ ∧
    (exec_command_parent ⟨Disposition.dfl, []⟩ (some 5) ⟨false, 0, 0⟩).trace.get? 3 =
      some ⟨Disposition.ign, []⟩ ∧
    Disposition.dfl ≠ Disposition.ign := ⟨by decide, by decide, by decide⟩

/-- C2 amended: for every launch with a successful fork (starting from
the core resting state: default disposition, no children), the
disposition is default strictly before and strictly after the call, it
is changed to ignore only after the fork point (at the fork snapshot it
is still default, so the child inherits default), it is restored before
return, and it is ignore precisely at the two snapshots bracketing the
blocking wait --- an interval that contains the whole wait but starts
strictly after the child begins running and ends strictly after the
child is reaped. -/
theorem C2_amended (p pick : Nat) (st : Int) (hp : 0 < p) :
    (exec_command_parent ⟨Disposition.dfl, []⟩ (some p) ⟨false, pick, st⟩).trace.map
        PState.dispo =
      [Disposition.dfl, Disposition.dfl, Disposition.ign, Disposition.ign,
       Disposition.dfl] ∧
    (exec_command_parent ⟨Disposition.dfl, []⟩ (some p) ⟨false, pick, st⟩).trace.map
        PState.children = [[], [p], [p], [], []] := by
  have hpz : ((p : Nat) : Int) ≠ 0 := by omega
  constructor <;> simp [exec_command_parent, sysFork, sysWaitAny, hpz, Nat.mod_one]

/-- C2 witness: the amended statement evaluated at a concrete launch
(child pid 5). -/
theorem C2_witness :
    (exec_command_parent ⟨Disposition.dfl, []⟩ (some 5) ⟨false, 3, 2⟩).trace.map
        PState.dispo =
      [Disposition.dfl, Disposition.dfl, Disposition.ign, Disposition.ign,
       Disposition.dfl] ∧
    (exec_command_parent ⟨Disposition.dfl, []⟩ (some 5) ⟨false, 3, 2⟩).trace.map
        PState.children = [[], [5], [5], [], []] := by
  simpa using C2_amended 5 3 2 (by decide)

/-- C3 counterexample. The claim says the wait step blocks until the
specific child recorded at fork terminates and never mistakes another
child for it. The code calls wait(nullptr), an any-child wait: in a
state with an unrelated live child of pid 7, launching child 5 can have
the wait return pid 7 --- the unrelated child --- after which the
recorded child 5 is still live and unwaited at the post-wait
snapshot. -/
theorem C3_counterexample :
    (exec_command_parent ⟨Disposition.dfl, [7]⟩ (some 5) ⟨false, 0, 0⟩).calls =
      [Sys.forkCall 5, Sys.signalCall Disposition.ign, Sys.waitCall 7,
       Sys.signalCall Disposition.dfl] ∧
    (exec_command_parent ⟨Disposition.dfl, [7]⟩ (some 5) ⟨false, 0, 0⟩).trace.get? 3 =
      some ⟨Disposition.ign, [5]⟩ := ⟨by decide, by decide⟩

/-- C3 amended: the wait step is an any-child wait, not a wait on the
recorded handle; but when the launcher starts with no other live child
--- the regime this program actually maintains, one child at a time ---
the only child the OS can report is the recorded one, so the wait does
reap exactly the child created by this launch, whichever way the OS
makes its choice. -/
theorem C3_amended (d0 : Disposition) (p pick : Nat) (st : Int) (hp : 0 < p) :
    (exec_command_parent ⟨d0, []⟩ (some p) ⟨false, pick, st⟩).calls =
      [Sys.forkCall (p : Int), Sys.signalCall Disposition.ign, Sys.waitCall (p : Int),
       Sys.signalCall Disposition.dfl] ∧
    (exec_command_parent ⟨d0, []⟩ (some p) ⟨false, pick, st⟩).trace.get? 3 =
      some ⟨Disposition.ign, []⟩ := by
  have hpz : ((p : Nat) : Int) ≠ 0 := by omega
  constructor <;> simp [exec_command_parent, sysFork, sysWaitAny, hpz, Nat.mod_one]

/-- C3 witness: the amended statement evaluated at a concrete launch
(child pid 5, arbitrary OS choice index 4). -/
theorem C3_witness :
    (exec_command_parent ⟨Disposition.dfl, []⟩ (some 5) ⟨false, 4, 0⟩).calls =
      [Sys.forkCall 5, Sys.signalCall Disposition.ign, Sys.waitCall 5,
       Sys.signalCall Disposition.dfl] ∧
    (exec_command_parent ⟨Disposition.dfl, []⟩ (some 5) ⟨false, 4, 0⟩).trace.get? 3 =
      some ⟨Disposition.ign, []⟩ := by
  simpa using C3_amended Disposition.dfl 5 4 0 (by decide)

/-- C4 counterexample. The claim says a failed fork surfaces a distinct
error and does not invoke the wait coordinator (no disposition change,
no wait). The code tests !(pid = fork()), and the -1 of a failed fork
is nonzero, so the parent branch runs anyway: the run for a failed fork
changes the disposition to ignore, issues the wait call (which fails
with -1, ignored), restores the disposition and returns void --- no
distinct error value exists anywhere in the run. -/
theorem C4_counterexample :
    exec_command_parent ⟨Disposition.dfl, []⟩ none ⟨false, 0, 0⟩ =
      { trace := [⟨Disposition.dfl, []⟩, ⟨Disposition.dfl, []⟩, ⟨Disposition.ign, []⟩,
          ⟨Disposition.ign, []⟩, ⟨Disposition.dfl, []⟩],
        calls := [Sys.forkCall (-1), Sys.signalCall Disposition.ign, Sys.waitCall (-1),
          Sys.signalCall Disposition.dfl] } := by decide

/-- C4 amended: when fork fails, exec_command takes the parent branch
(the -1 return is nonzero): it sets the disposition to ignore, calls
wait --- which fails with -1 since no child exists, a result the code
discards --- restores the default disposition and returns normally;
no error is surfaced to the caller (the function returns void), for
every possible wait oracle. -/
theorem C4_amended (d0 : Disposition) (o : WaitOracle) :
    exec_command_parent ⟨d0, []⟩ none o =
      { trace := [⟨d0, []⟩, ⟨d0, []⟩, ⟨Disposition.ign, []⟩, ⟨Disposition.ign, []⟩,
          ⟨Disposition.dfl, []⟩],
        calls := [Sys.forkCall (-1), Sys.signalCall Disposition.ign, Sys.waitCall (-1),
          Sys.signalCall Disposition.dfl] } := by
  obtain ⟨i, pk, stt⟩ := o
  cases i <;> simp [exec_command_parent, sysFork, sysWaitAny]

/-- C5 counterexample. The claim says the exec-failure diagnostic is
printed to the error stream of the child. The code prints it with cout:
in the concrete failed launch of nonexistent_xyz the child emits the
diagnostic on standard output, which is not the error stream. -/
theorem C5_counterexample :
    exec_command_child { file := "nonexistent_xyz", args := [] }
        (ExecOutcome.failed "No such file or directory") =
      ChildEnd.selfExit (-1) OutStream.stdout
        "execvp failed with error: No such file or directory" ∧
    OutStream.stdout ≠ OutStream.stderr := ⟨rfl, by decide⟩

/-- C5 amended: for every command and every OS error description, when
execvp fails the child continuation prints a diagnostic containing the
OS error description --- on the standard output stream, not the error
stream --- and terminates itself immediately via exit(-1), a reserved
status whose observed value is nonzero; the continuation ends in
selfExit, never in any state belonging to the parent. -/
theorem C5_amended (cmd : Command) (d : String) :
    exec_command_child cmd (ExecOutcome.failed d) =
      ChildEnd.selfExit (-1) OutStream.stdout ("execvp failed with error: " ++ d) ∧
    observedExitStatus (-1) ≠ 0 := ⟨rfl, by decide⟩

/-- C6 counterexample. The claim says a wait failure is surfaced to the
caller as an error, never silently ignored. In the concrete launch of
child 5 where the wait is interrupted and fails with -1, the run
completes the normal statement sequence after the failed wait --- the
restore happens and the function returns void --- and the failure
value appears nowhere after the wait call: it is silently dropped, the
caller receives no error (the restoration half of the claim does hold:
the final snapshot has the default disposition). -/
theorem C6_counterexample :
    exec_command_parent ⟨Disposition.dfl, []⟩ (some 5) ⟨true, 0, 0⟩ =
      { trace := [⟨Disposition.dfl, []⟩, ⟨Disposition.dfl, [5]⟩, ⟨Disposition.ign, [5]⟩,
          ⟨Disposition.ign, [5]⟩, ⟨Disposition.dfl, [5]⟩],
        calls := [Sys.forkCall 5, Sys.signalCall Disposition.ign, Sys.waitCall (-1),
          Sys.signalCall Disposition.dfl] } := by decide

/-- C6 amended: restoration is indeed unconditional --- on every path
through the parent branch (fork success or failure, wait success,
ECHILD failure or interruption) the call sequence is fork, ignore,
wait, restore, and the state at return has the default disposition ---
but the wait failure is not surfaced: the result of wait is discarded
and exec_command returns void. -/
theorem C6_amended (s0 : PState) (fo : Option Nat) (o : WaitOracle)
    (hf : ∀ p, fo = some p → 0 < p) :
    (∃ fr r, (exec_command_parent s0 fo o).calls =
        [Sys.forkCall fr, Sys.signalCall Disposition.ign, Sys.waitCall r,
         Sys.signalCall Disposition.dfl]) ∧
    ((exec_command_parent s0 fo o).trace.get? 4).map PState.dispo =
      some Disposition.dfl := by
  cases fo with
  | none =>
    constructor
    · refine ⟨-1, (sysWaitAny { s0 with dispo := Disposition.ign } o).1, ?_⟩
      simp [exec_command_parent, sysFork]
    · simp [exec_command_parent, sysFork]
  | some p =>
    have hpz : ((p : Nat) : Int) ≠ 0 := by
      have h1 := hf p rfl
      omega
    constructor
    · refine ⟨(p : Int),
        (sysWaitAny (PState.mk Disposition.ign (s0.children ++ [p])) o).1, ?_⟩
      simp [exec_command_parent, sysFork, hpz]
    · simp [exec_command_parent, sysFork, hpz]

/-- C6 witness: the amended statement evaluated at a concrete launch
(child pid 5) whose wait is interrupted and fails. -/
theorem C6_witness :
    (∃ fr r, (exec_command_parent ⟨Disposition.dfl, []⟩ (some 5) ⟨true, 0, 0⟩).calls =
        [Sys.forkCall fr, Sys.signalCall Disposition.ign, Sys.waitCall r,
         Sys.signalCall Disposition.dfl]) ∧
    ((exec_command_parent ⟨Disposition.dfl, []⟩ (some 5) ⟨true, 0, 0⟩).trace.get? 4).map
        PState.dispo = some Disposition.dfl :=
  C6_amended ⟨Disposition.dfl, []⟩ (some 5) ⟨true, 0, 0⟩
    (by intro p hp; injection hp with h; omega)

/-- C7: for every Command, the argument vector the child hands to
execvp is exactly the executable name (duplicated as argument zero),
then the user-supplied arguments in their original order, then the null
end-of-list terminator. -/
theorem C7_argv_layout (cmd : Command) :
    exec_command_child cmd ExecOutcome.replaced =
      ChildEnd.imageReplaced cmd.file
        (some cmd.file :: (cmd.args.map some ++ [none])) := by
  simp [exec_command_child, buildArgv_eq]

/-- C8 counterexample. The claim says parse_input never returns a
Command whose executable is the empty string. A line consisting of a
single space, or starting with a space, makes the loop push the empty
segment before the space, so the returned executable is empty and no
construction error is raised. -/
theorem C8_counterexample :
    parse_input " " = Except.ok { file := "", args := [] } ∧
    parse_input " a" = Except.ok { file := "", args := ["a"] } := ⟨rfl, rfl⟩

/-- C8 amended: parse_input raises the construction error exactly on
the empty line; on every other line it returns a Command whose
executable is the first space-delimited segment, and that executable is
the empty string precisely when the line begins with a space. -/
theorem C8_amended (s : String) :
    (parse_input s = Except.error "Empty command" ↔ s.data = []) ∧
    (∀ cmd, parse_input s = Except.ok cmd →
      (cmd.file = "" ↔ s.data.head? = some ' ')) := by
  obtain ⟨l⟩ := s
  cases l with
  | nil =>
    constructor
    · simp [parse_input, collectParts]
    · intro cmd h
      simp [parse_input, collectParts] at h
  | cons c rest =>
    by_cases hc : c = ' '
    · subst hc
      have hp : parse_input ⟨' ' :: rest⟩ =
          Except.ok { file := String.mk [], args := collectParts rest [] } := rfl
      constructor
      · rw [hp]
        simp
      · intro cmd h
        rw [hp] at h
        injection h with h2
        subst h2
        have hmk : String.mk ([] : List Char) = "" := rfl
        simp [hmk]
    · have hone : collectParts (c :: rest) [] = collectParts rest [c] := by
        simp [collectParts, hc]
      obtain ⟨t, ht⟩ := collectParts_head rest [c] (by simp)
      cases hx : collectParts rest [c] with
      | nil =>
        rw [hx] at ht
        simp at ht
      | cons p ps =>
        rw [hx] at ht
        simp at ht
        have hp : parse_input ⟨c :: rest⟩ = Except.ok { file := p, args := ps } := by
          simp [parse_input, hone, hx]
        constructor
        · rw [hp]
          simp
        · intro cmd h
          rw [hp] at h
          injection h with h2
          subst h2
          constructor
          · intro hfe
            rw [ht] at hfe
            have hd := congrArg String.data hfe
            simp at hd
          · intro hh
            simp at hh
            exact absurd hh hc

/-- C8 witness: the amended statement evaluated at the empty line and
at the single-space line. -/
theorem C8_witness :
    parse_input "" = Except.error "Empty command" ∧
    (Command.file { file := "", args := ([] : List String) } = "" ↔
      (" " : String).data.head? = some ' ') := by
  constructor
  · exact (C8_amended "").1.mpr rfl
  · exact (C8_amended " ").2 { file := "", args := [] } rfl

/-- C9 counterexample. The claim says errors local to one launch,
including a malformed or empty command line, never abort the prompt
loop. With input lines empty-then-ls, the empty line makes parse_input
throw; the exception escapes repl_loop and the while loop and is caught
by the try/catch in main, which reports Fatal error and ends the
program: no command is ever executed and the following line is never
prompted for --- while the same stream without the empty line runs both
commands to end of input. -/
theorem C9_counterexample :
    runMain ["", "ls"] = ([], LoopEnd.fatal "Empty command") ∧
    runMain ["ls", "ls"] =
      ([{ file := "ls", args := [] }, { file := "ls", args := [] }],
       LoopEnd.eof) := ⟨rfl, rfl⟩

/-- C9 amended: a parse error (the empty command line) aborts the
prompt loop --- the exception propagates out of the loop, main reports
it as Fatal error and the program exits without reading further lines
--- whereas a successfully parsed non-exit command never aborts the
loop, since exec_command returns void and throws nothing: the loop
records the command and continues with the remaining lines. -/
theorem C9_amended (line : String) (rest : List String) :
    (∀ e, parse_input line = Except.error e →
      runMain (line :: rest) = ([], LoopEnd.fatal e)) ∧
    (∀ cmd, parse_input line = Except.ok cmd → cmd.file ≠ "exit" →
      runMain (line :: rest) = (cmd :: (runMain rest).1, (runMain rest).2)) := by
  constructor
  · intro e h
    simp [runMain, h]
  · intro cmd h hx
    simp [runMain, h, hx]

/-- C9 witness: the amended statement evaluated at the empty line
followed by pwd, and at pwd alone. -/
theorem C9_witness :
    runMain ["", "pwd"] = ([], LoopEnd.fatal "Empty command") ∧
    runMain ["pwd"] = ([{ file := "pwd", args := [] }], LoopEnd.eof) := by
  constructor
  · exact (C9_amended "" ["pwd"]).1 "Empty command" rfl
  · have h := (C9_amended "pwd" []).2 { file := "pwd", args := [] } rfl (by decide)
    simpa [runMain] using h

/-- C10: for every exec failure in the child the child terminates via
exit(-1), whose parent-observable exit status is the low 8 bits of -1,
namely 255; consequently a program that itself exits with status 255
yields the identical parent-observable outcome. -/
theorem C10_exec_failure_observed_status (cmd : Command) (d : String) :
    exec_command_child cmd (ExecOutcome.failed d) =
      ChildEnd.selfExit (-1) OutStream.stdout ("execvp failed with error: " ++ d) ∧
    observedExitStatus (-1) = 255 ∧
    observedExitStatus 255 = observedExitStatus (-1) := ⟨rfl, by decide, by decide⟩

end Shell
